import Mathlib

/-!
Verification of the plan-route subsystem of lawncare-pro
(`src/server/lib/setupPlanRoutes.ts`).

Shallow embedding conventions:

* The relational store is a record of lists of rows (`UserPlans`,
  `PlanSteps`, `GrassSpecies`), plus a counter `nextStepId` standing for
  the serial sequence behind `PlanSteps.planStepId`.
* Ids and timestamps are `Nat`; nullable SQL columns are `Option _`.
* Each route handler becomes a function `DB → args → DB × Except ClientError Out`:
  the returned `DB` is the store state after the request, the `Except`
  is the JSON response or the `ClientError` passed to `next(err)`.
* A transactional handler (`BEGIN … COMMIT` / catch `ROLLBACK`) returns
  the pre-`BEGIN` snapshot whenever the body throws; non-transactional
  handlers return whatever partial state their executed statements left.
* `update`'s per-step writes can fail in the real store; the injected
  parameter `fault : Option Nat` names the index of the step write that
  fails (`none` = no store failure), modelling "any step write failing".
* `NOW()` is an explicit parameter `now : Nat`.
* JavaScript truthiness (`x || false`, `if (step.planStepId)`,
  `maxOrder || 0`) is embedded by the `js*` helpers below.
* In `SELECT up.*, gs.name AS "grassSpeciesName", ps.*` the column names
  `userPlanId` and `completedAt` occur twice; node-postgres builds each
  row object by assigning columns left to right, so the later `ps`
  columns overwrite the `up` ones.  `JoinRow` holds the row object after
  that overwriting: its `userPlanId`/`completedAt` are the step's copies
  (null on an unmatched LEFT JOIN row), while `createdAt` is the plan's
  (`PlanSteps` has no `createdAt` column in the data model).
-/

/-- Error shape of `ClientError(status, message)`. -/
structure ClientError where
  status : Nat
  message : String
deriving DecidableEq

/-- One row of `"UserPlans"`. -/
structure PlanRow where
  userPlanId : Nat
  userId : Nat
  grassSpeciesId : Nat
  planType : String
  establishmentType : Option String
  isCompleted : Bool
  isArchived : Bool
  createdAt : Nat
  completedAt : Option Nat
deriving DecidableEq

/-- One row of `"PlanSteps"`.  `planStepId` is the non-null primary key;
`stepOrder` is nullable (the step insert inside `update` supplies no
`stepOrder`). -/
structure StepRow where
  planStepId : Nat
  userPlanId : Nat
  templateId : Option Nat
  stepDescription : String
  dueDate : Nat
  completed : Bool
  completedAt : Option Nat
  stepOrder : Option Int
deriving DecidableEq

/-- One row of `"GrassSpecies"` (only the joined columns). -/
structure GrassSpecies where
  grassSpeciesId : Nat
  name : String
deriving DecidableEq

/-- The relational store. -/
structure DB where
  plans : List PlanRow
  steps : List StepRow
  species : List GrassSpecies
  nextStepId : Nat
deriving DecidableEq

/-- JavaScript `x || false` on a possibly-absent boolean. -/
def jsOrFalse : Option Bool → Bool
  | none => false
  | some b => b

/-- JavaScript truthiness of a nullable id (`if (step.planStepId)`):
null and 0 are falsy. -/
def jsTruthyId : Option Nat → Bool
  | none => false
  | some n => n != 0

/-- JavaScript `maxOrder || 0` on the nullable SQL `MAX` result:
null and 0 both yield 0. -/
def jsOrZeroInt : Option Int → Int
  | none => 0
  | some m => if m == 0 then 0 else m

/-- The ubiquitous ownership filter
`WHERE "userPlanId" = $1 AND "userId" = $2`. -/
def planMatch (planId userId : Nat) (p : PlanRow) : Bool :=
  p.userPlanId == planId && p.userId == userId

/-- SQL `MAX("stepOrder")` over a list of step rows: nulls are ignored,
an empty (or all-null) input yields null. -/
def sqlMaxOrder (l : List StepRow) : Option Int :=
  l.foldl
    (fun acc s =>
      match acc, s.stepOrder with
      | none, o => o
      | some m, none => some m
      | some m, some o => some (max m o))
    none

/-- `ORDER BY "dueDate" ASC` on nullable dates: SQL sorts nulls last. -/
def optDueLe : Option Nat → Option Nat → Prop
  | _, none => True
  | none, some _ => False
  | some x, some y => x ≤ y

instance : DecidableRel optDueLe := fun a b =>
  match a, b with
  | none, none => .isTrue trivial
  | some _, none => .isTrue trivial
  | none, some _ => .isFalse (fun h => h)
  | some x, some y => Nat.decLe x y

/-- `ORDER BY "dueDate" ASC` on the base `PlanSteps` table (non-null dates). -/
def stepLe (a b : StepRow) : Prop := a.dueDate ≤ b.dueDate

instance : DecidableRel stepLe := fun a b => Nat.decLe a.dueDate b.dueDate

instance : IsTotal StepRow stepLe := ⟨fun a b => Nat.le_total a.dueDate b.dueDate⟩

instance : IsTrans StepRow stepLe := ⟨fun _ _ _ h h' => Nat.le_trans h h'⟩

/-- Plan + species (+ step via LEFT JOIN) row object, after node-postgres
collapses the duplicate column names (see module docstring). -/
structure JoinRow where
  userId : Nat
  grassSpeciesId : Nat
  planType : String
  establishmentType : Option String
  isCompleted : Bool
  isArchived : Bool
  createdAt : Nat
  grassSpeciesName : String
  planStepId : Option Nat
  userPlanId : Option Nat
  templateId : Option Nat
  stepDescription : Option String
  dueDate : Option Nat
  completed : Option Bool
  completedAt : Option Nat
  stepOrder : Option Int
deriving DecidableEq

/-- `ORDER BY ps."dueDate" ASC` on joined rows (the `update` re-read). -/
def rowDueLe (a b : JoinRow) : Prop := optDueLe a.dueDate b.dueDate

instance : DecidableRel rowDueLe := fun a b =>
  inferInstanceAs (Decidable (optDueLe a.dueDate b.dueDate))

/-- `ORDER BY up."createdAt" DESC, ps."dueDate" ASC` on joined rows
(the `listForUser` query). -/
def listRowLe (a b : JoinRow) : Prop :=
  b.createdAt < a.createdAt ∨ (a.createdAt = b.createdAt ∧ optDueLe a.dueDate b.dueDate)

instance : DecidableRel listRowLe := fun a b =>
  inferInstanceAs
    (Decidable (b.createdAt < a.createdAt ∨ (a.createdAt = b.createdAt ∧ optDueLe a.dueDate b.dueDate)))

/-- Joined row for a plan/species pair and one of its steps. -/
def mkJoinRow (up : PlanRow) (gs : GrassSpecies) (s : StepRow) : JoinRow :=
  { userId := up.userId
    grassSpeciesId := up.grassSpeciesId
    planType := up.planType
    establishmentType := up.establishmentType
    isCompleted := up.isCompleted
    isArchived := up.isArchived
    createdAt := up.createdAt
    grassSpeciesName := gs.name
    planStepId := some s.planStepId
    userPlanId := some s.userPlanId
    templateId := s.templateId
    stepDescription := some s.stepDescription
    dueDate := some s.dueDate
    completed := some s.completed
    completedAt := s.completedAt
    stepOrder := s.stepOrder }

/-- Unmatched LEFT JOIN row: every `ps` column is null, which includes
the shadowed `userPlanId` and `completedAt`. -/
def nullJoinRow (up : PlanRow) (gs : GrassSpecies) : JoinRow :=
  { userId := up.userId
    grassSpeciesId := up.grassSpeciesId
    planType := up.planType
    establishmentType := up.establishmentType
    isCompleted := up.isCompleted
    isArchived := up.isArchived
    createdAt := up.createdAt
    grassSpeciesName := gs.name
    planStepId := none
    userPlanId := none
    templateId := none
    stepDescription := none
    dueDate := none
    completed := none
    completedAt := none
    stepOrder := none }

/-- `JOIN "GrassSpecies" … LEFT JOIN "PlanSteps" …` for one plan row:
no row at all when the species is missing (inner join), one all-null
step part when the plan has no steps. -/
def joinPlanRows (db : DB) (up : PlanRow) : List JoinRow :=
  match db.species.find? (fun g => g.grassSpeciesId == up.grassSpeciesId) with
  | none => []
  | some gs =>
      match db.steps.filter (fun s => s.userPlanId == up.userPlanId) with
      | [] => [nullJoinRow up gs]
      | ss => ss.map (mkJoinRow up gs)

/-- The `update` handler's post-commit re-read:
`WHERE up."userPlanId" = $1 ORDER BY ps."dueDate" ASC` (no owner scope). -/
def reReadRows (db : DB) (planId : Nat) : List JoinRow :=
  List.insertionSort rowDueLe
    ((db.plans.filter (fun p => p.userPlanId == planId)).flatMap (joinPlanRows db))

/-- The `listForUser` joined query:
`WHERE up."userId" = $1 ORDER BY up."createdAt" DESC, ps."dueDate" ASC`. -/
def listRows (db : DB) (userId : Nat) : List JoinRow :=
  List.insertionSort listRowLe
    ((db.plans.filter (fun p => p.userId == userId)).flatMap (joinPlanRows db))

/-- Step object pushed by the `listForUser` grouping loop
(`plan.steps.push({...})`), field by field from the row object. -/
structure StepOut where
  planStepId : Option Nat
  userPlanId : Option Nat
  templateId : Option Nat
  stepDescription : Option String
  dueDate : Option Nat
  completed : Option Bool
  completedAt : Option Nat
  createdAt : Nat
deriving DecidableEq

/-- Plan object created by the `listForUser` grouping loop.  Its
`userPlanId` and `completedAt` read the shadowed (step) columns of the
row object. -/
structure PlanOut where
  userPlanId : Option Nat
  userId : Nat
  grassSpeciesId : Nat
  grassSpeciesName : String
  establishmentType : Option String
  planType : String
  isCompleted : Bool
  isArchived : Bool
  createdAt : Nat
  completedAt : Option Nat
  steps : List StepOut
deriving DecidableEq

/-- The step object `listForUser` pushes for a row. -/
def stepOutOfRow (row : JoinRow) : StepOut :=
  { planStepId := row.planStepId
    userPlanId := row.userPlanId
    templateId := row.templateId
    stepDescription := row.stepDescription
    dueDate := row.dueDate
    completed := row.completed
    completedAt := row.completedAt
    createdAt := row.createdAt }

/-- The plan object `listForUser` creates on first sight of a
`row.userPlanId` value. -/
def planOutOfRow (row : JoinRow) : PlanOut :=
  { userPlanId := row.userPlanId
    userId := row.userId
    grassSpeciesId := row.grassSpeciesId
    grassSpeciesName := row.grassSpeciesName
    establishmentType := row.establishmentType
    planType := row.planType
    isCompleted := row.isCompleted
    isArchived := row.isArchived
    createdAt := row.createdAt
    completedAt := row.completedAt
    steps := [] }

/-- Mutate the first list element satisfying `q` (the JS loop mutates the
object returned by `plans.find`). -/
def updateFirst (q : PlanOut → Bool) (f : PlanOut → PlanOut) : List PlanOut → List PlanOut
  | [] => []
  | p :: ps => if q p then f p :: ps else p :: updateFirst q f ps

/-- Append a step object to a plan object. -/
def pushStep (row : JoinRow) (p : PlanOut) : PlanOut :=
  { p with steps := p.steps ++ [stepOutOfRow row] }

/-- One iteration of the `listForUser` grouping loop: look the row's
(shadowed) `userPlanId` up with `plans.find`, push a fresh plan object
when absent, then push a step object when `row.planStepId` is truthy. -/
def addRow (plans : List PlanOut) (row : JoinRow) : List PlanOut :=
  match plans.find? (fun p => p.userPlanId == row.userPlanId) with
  | some _ =>
      if jsTruthyId row.planStepId then
        updateFirst (fun p => p.userPlanId == row.userPlanId) (pushStep row) plans
      else plans
  | none =>
      let plans' := plans ++ [planOutOfRow row]
      if jsTruthyId row.planStepId then
        updateFirst (fun p => p.userPlanId == row.userPlanId) (pushStep row) plans'
      else plans'

/-- Response shape of `GET /api/plans/:planId` (`{...plan, steps}`). -/
structure GetPlanOut where
  userPlanId : Nat
  userId : Nat
  grassSpeciesId : Nat
  grassSpeciesName : String
  planType : String
  establishmentType : Option String
  isCompleted : Bool
  isArchived : Bool
  createdAt : Nat
  completedAt : Option Nat
  steps : List StepRow
deriving DecidableEq

/-- `GET /api/plans/:planId`: plan joined with species name, steps of the
plan ordered by due date.  (The handler's `planStepId !== null` filter on
the plain `SELECT * FROM "PlanSteps"` result is vacuous, `planStepId`
being the non-null primary key, and is therefore not reproduced.) -/
def getPlan (db : DB) (planId userId : Nat) : DB × Except ClientError GetPlanOut :=
  let planRows :=
    (db.plans.filter (planMatch planId userId)).filterMap (fun p =>
      (db.species.find? (fun g => g.grassSpeciesId == p.grassSpeciesId)).map (fun g => (p, g)))
  match planRows with
  | [] => (db, .error ⟨404, "Plan not found"⟩)
  | (p, g) :: _ =>
      let steps := List.insertionSort stepLe (db.steps.filter (fun s => s.userPlanId == planId))
      (db, .ok
        { userPlanId := p.userPlanId
          userId := p.userId
          grassSpeciesId := p.grassSpeciesId
          grassSpeciesName := g.name
          planType := p.planType
          establishmentType := p.establishmentType
          isCompleted := p.isCompleted
          isArchived := p.isArchived
          createdAt := p.createdAt
          completedAt := p.completedAt
          steps := steps })

/-- One element of the `PUT /api/plans/:planId` body's `steps` array. -/
structure StepPayload where
  planStepId : Option Nat
  stepDescription : String
  dueDate : Nat
  completed : Bool
deriving DecidableEq

/-- The `PUT /api/plans/:planId` request body (`updatedPlan`). -/
structure UpdatePayload where
  grassSpeciesId : Nat
  planType : String
  isCompleted : Option Bool
  isArchived : Option Bool
  establishmentType : Option String
  steps : List StepPayload
deriving DecidableEq

/-- The plan row produced by `update`'s `UPDATE "UserPlans" SET …` for a
matched row: scalar fields from the payload, `createdAt`/`completedAt`
untouched. -/
def mergedPlan (payload : UpdatePayload) (p : PlanRow) : PlanRow :=
  { p with
    grassSpeciesId := payload.grassSpeciesId
    planType := payload.planType
    isCompleted := jsOrFalse payload.isCompleted
    isArchived := jsOrFalse payload.isArchived
    establishmentType := payload.establishmentType }

/-- One step write of the `update` loop: an `UPDATE` scoped to
`(planStepId, userPlanId)` when `step.planStepId` is truthy, otherwise an
`INSERT` with null `templateId` (and hence null `completedAt` and
`stepOrder`, which the insert does not supply). -/
def applyStepWrite (planId : Nat) (db : DB) (st : StepPayload) : DB :=
  if jsTruthyId st.planStepId then
    { db with
      steps := db.steps.map (fun s =>
        if some s.planStepId == st.planStepId && s.userPlanId == planId then
          { s with
            stepDescription := st.stepDescription
            dueDate := st.dueDate
            completed := st.completed }
        else s) }
  else
    { db with
      steps := db.steps ++
        [{ planStepId := db.nextStepId
           userPlanId := planId
           templateId := none
           stepDescription := st.stepDescription
           dueDate := st.dueDate
           completed := st.completed
           completedAt := none
           stepOrder := none }]
      nextStepId := db.nextStepId + 1 }

/-- The `update` step loop with an injected store fault: the write at
index `fault` throws instead of executing. -/
def stepsLoop (planId : Nat) : DB → List StepPayload → Option Nat → Nat → Except ClientError DB
  | db, [], _, _ => .ok db
  | db, st :: rest, fault, i =>
      if fault == some i then .error ⟨500, "store failure"⟩
      else stepsLoop planId (applyStepWrite planId db st) rest fault (i + 1)

/-- The transactional body of `PUT /api/plans/:planId` (between `BEGIN`
and `COMMIT`): plan `UPDATE … RETURNING *`, 404 on an empty row set,
then the step writes. -/
def updateTx (db : DB) (planId userId : Nat) (payload : UpdatePayload) (fault : Option Nat) :
    Except ClientError DB :=
  let db1 : DB :=
    { db with
      plans := db.plans.map (fun p =>
        if planMatch planId userId p then mergedPlan payload p else p) }
  if db.plans.any (planMatch planId userId) then
    stepsLoop planId db1 payload.steps fault 0
  else .error ⟨404, "Plan not found"⟩

/-- One element of the `steps` array of `update`'s response (the
re-read's row projection; fields may be null on an unmatched LEFT JOIN
row). -/
structure UpdStepOut where
  planStepId : Option Nat
  stepDescription : Option String
  dueDate : Option Nat
  completed : Option Bool
deriving DecidableEq

/-- `update`'s response: `{...rows[0], steps: rows.map(...)}`. -/
structure UpdateOut where
  plan : Option JoinRow
  steps : List UpdStepOut
deriving DecidableEq

/-- The step projection of `update`'s response. -/
def projUpdStep (row : JoinRow) : UpdStepOut :=
  { planStepId := row.planStepId
    stepDescription := row.stepDescription
    dueDate := row.dueDate
    completed := row.completed }

/-- `PUT /api/plans/:planId`: transaction (plan update + step writes),
rollback to the snapshot on any failure, then a post-commit re-read of
the merged plan with its steps. -/
def updatePlan (db : DB) (planId userId : Nat) (payload : UpdatePayload) (fault : Option Nat) :
    DB × Except ClientError UpdateOut :=
  match updateTx db planId userId payload fault with
  | .error e => (db, .error e)
  | .ok dbC =>
      let rows := reReadRows dbC planId
      (dbC, .ok { plan := rows.head?, steps := rows.map projUpdStep })

/-- `GET /api/users/:userId/plans`: 403 on a path/auth identity mismatch,
otherwise the grouping loop over the sorted joined rows. -/
def listForUser (db : DB) (pathUserId authUserId : Nat) :
    DB × Except ClientError (List PlanOut) :=
  if pathUserId ≠ authUserId then
    (db, .error ⟨403, "Unauthorized to access plans for this user"⟩)
  else
    (db, .ok ((listRows db pathUserId).foldl addRow []))

/-- `PUT /api/plans/:planId/steps/:stepId`: ownership check, then a
single-step `UPDATE` writing the caller-supplied `completed` and
`completedAt`, 404 when it affects no row.  Not transactional (the
lone write is a no-op exactly when the 404 fires). -/
def completeStep (db : DB) (planId stepId userId : Nat)
    (completed : Bool) (completedAt : Option Nat) :
    DB × Except ClientError StepRow :=
  if (db.plans.filter (planMatch planId userId)).isEmpty then
    (db, .error ⟨404, "Plan not found"⟩)
  else
    let db1 : DB :=
      { db with
        steps := db.steps.map (fun s =>
          if s.planStepId == stepId && s.userPlanId == planId then
            { s with completed := completed, completedAt := completedAt }
          else s) }
    match db1.steps.filter (fun s => s.planStepId == stepId && s.userPlanId == planId) with
    | [] => (db1, .error ⟨404, "Step not found"⟩)
    | u :: _ => (db1, .ok u)

/-- `PUT /api/plans/:planId/complete`: within one transaction, ownership
check, `UPDATE "UserPlans" SET "isCompleted" = true` scoped to the plan
id only, then `UPDATE "PlanSteps" SET "completed" = true,
"completedAt" = NOW() WHERE … "completed" = false`.  Responds with the
first returned plan row. -/
def completePlan (db : DB) (planId userId : Nat) (now : Nat) :
    DB × Except ClientError (Option PlanRow) :=
  if (db.plans.filter (planMatch planId userId)).isEmpty then
    (db, .error ⟨404, "Plan not found"⟩)
  else
    let db1 : DB :=
      { db with
        plans := db.plans.map (fun p =>
          if p.userPlanId == planId then { p with isCompleted := true } else p) }
    let db2 : DB :=
      { db1 with
        steps := db1.steps.map (fun s =>
          if s.userPlanId == planId && s.completed == false then
            { s with completed := true, completedAt := some now }
          else s) }
    (db2, .ok ((db1.plans.filter (fun p => p.userPlanId == planId)).head?))

/-- `DELETE /api/plans/:planId`: within one transaction, delete the
plan's steps (scoped to the plan id only), then the plan row scoped to
the owner; 404 — and rollback to the snapshot — when the plan delete
returns no row. -/
def deletePlan (db : DB) (planId userId : Nat) : DB × Except ClientError String :=
  let db1 : DB := { db with steps := db.steps.filter (fun s => !(s.userPlanId == planId)) }
  let deleted := db1.plans.filter (planMatch planId userId)
  if deleted.isEmpty then
    (db, .error ⟨404, "Plan not found"⟩)
  else
    ({ db1 with plans := db1.plans.filter (fun p => !(planMatch planId userId p)) },
      .ok "Plan deleted successfully")

/-- The `POST /api/plans/:planId/steps` request body. -/
structure NewStepPayload where
  stepDescription : String
  dueDate : Nat
  completed : Option Bool
deriving DecidableEq

/-- `POST /api/plans/:planId/steps`: ownership check, `MAX("stepOrder")`
for the plan, insert with null `templateId` and
`(maxOrder || 0) + 1` as the new order, respond 201 with the created
row. -/
def addStep (db : DB) (planId userId : Nat) (newStep : NewStepPayload) :
    DB × Except ClientError (StepRow × Nat) :=
  if (db.plans.filter (planMatch planId userId)).isEmpty then
    (db, .error ⟨404, "Plan not found"⟩)
  else
    let maxOrder := sqlMaxOrder (db.steps.filter (fun s => s.userPlanId == planId))
    let newStepOrder := jsOrZeroInt maxOrder + 1
    let row : StepRow :=
      { planStepId := db.nextStepId
        userPlanId := planId
        templateId := none
        stepDescription := newStep.stepDescription
        dueDate := newStep.dueDate
        completed := jsOrFalse newStep.completed
        completedAt := none
        stepOrder := some newStepOrder }
    ({ db with steps := db.steps ++ [row], nextStepId := db.nextStepId + 1 },
      .ok (row, 201))

/-- `DELETE /api/plans/:planId/steps/:stepId`: ownership check, delete
the step scoped to `(stepId, planId)`, 404 when no row was deleted. -/
def deleteStep (db : DB) (planId stepId userId : Nat) : DB × Except ClientError String :=
  if (db.plans.filter (planMatch planId userId)).isEmpty then
    (db, .error ⟨404, "Plan not found"⟩)
  else
    let deleted := db.steps.filter (fun s => s.planStepId == stepId && s.userPlanId == planId)
    let db1 : DB :=
      { db with
        steps := db.steps.filter (fun s => !(s.planStepId == stepId && s.userPlanId == planId)) }
    if deleted.isEmpty then (db1, .error ⟨404, "Step not found"⟩)
    else (db1, .ok "Step deleted successfully")

/-- `POST /api/users/:userId/plans` (save to profile): 403 on identity
mismatch, 404 when the plan is not the (path) user's, otherwise a no-op
success. -/
def saveExisting (db : DB) (pathUserId planId authUserId : Nat) :
    DB × Except ClientError String :=
  if pathUserId ≠ authUserId then
    (db, .error ⟨403, "Unauthorized to save plan for this user"⟩)
  else if (db.plans.filter (planMatch planId pathUserId)).isEmpty then
    (db, .error ⟨404, "Plan not found or does not belong to the user"⟩)
  else
    (db, .ok "Plan saved to profile successfully")

/-- Invariant of claim C1: a completed step always carries a completion
timestamp. -/
def StepTimestampInv (db : DB) : Prop :=
  ∀ s ∈ db.steps, s.completed = true → s.completedAt ≠ none

/-- All plan rows with the given id are marked completed. -/
def PlanCompleted (db : DB) (pid : Nat) : Prop :=
  ∀ p ∈ db.plans, p.userPlanId = pid → p.isCompleted = true

/-- Concrete species row used by the closed witness statements below. -/
def gsBermuda : GrassSpecies := ⟨1, "Bermuda"⟩

/-- Plan 1, owned by user 7. -/
def planOwned : PlanRow := ⟨1, 7, 1, "new_lawn", none, false, false, 100, none⟩

/-- Plan 1, owned by user 2 (a foreign plan from user 1's point of view). -/
def planForeign : PlanRow := ⟨1, 2, 1, "new_lawn", none, false, false, 100, none⟩

/-- Plan 1, owned by user 7, already completed. -/
def planDone : PlanRow := ⟨1, 7, 1, "new_lawn", none, true, false, 100, none⟩

/-- Plan 2, owned by user 7, created earlier than `planOwned`. -/
def planTwo : PlanRow := ⟨2, 7, 1, "lawn_improvement", none, false, false, 90, none⟩

/-- Three incomplete steps of plan 1. -/
def stepMow : StepRow := ⟨1, 1, none, "Mow", 50, false, none, some 1⟩

/-- Second concrete step. -/
def stepWater : StepRow := ⟨2, 1, none, "Water", 30, false, none, some 2⟩

/-- Third concrete step. -/
def stepSeed : StepRow := ⟨3, 1, none, "Seed", 40, false, none, some 3⟩

/-- Store with a foreign plan (owned by user 2). -/
def dbForeign : DB := ⟨[planForeign], [stepMow], [gsBermuda], 5⟩

/-- Store with plan 1 of user 7 and its three incomplete steps. -/
def dbOwned : DB := ⟨[planOwned], [stepMow, stepWater, stepSeed], [gsBermuda], 5⟩

/-- Store with a completed plan of user 7. -/
def dbDone : DB := ⟨[planDone], [], [gsBermuda], 5⟩

/-- Store with plan 1 of user 7 and no steps at all. -/
def dbEmptyPlan : DB := ⟨[planOwned], [], [gsBermuda], 3⟩

/-- Store with two plans of user 7, both without steps. -/
def dbTwoEmpty : DB := ⟨[planOwned, planTwo], [], [gsBermuda], 3⟩

/-- An update payload that keeps the plan's scalar fields. -/
def payloadKeep : UpdatePayload := ⟨1, "new_lawn", none, none, none, []⟩

/-- An update payload carrying `isCompleted: false`. -/
def payloadUncomplete : UpdatePayload := ⟨1, "new_lawn", some false, none, none, []⟩

/-- An update payload inserting one fresh step. -/
def payloadOneStep : UpdatePayload := ⟨1, "new_lawn", none, none, none, [⟨none, "Mow", 5, false⟩]⟩

/-- A new-step request body. -/
def nsSeed : NewStepPayload := ⟨"Seed", 60, none⟩

/-- `planMatch` unfolded to propositional equality. -/
theorem planMatch_eq_true {pid uid : Nat} {p : PlanRow} :
    planMatch pid uid p = true ↔ p.userPlanId = pid ∧ p.userId = uid := by
  simp [planMatch]

/-- A `(planId, userId)` scope with no matching row filters to nothing. -/
theorem noMatch_filter {l : List PlanRow} {pid uid : Nat}
    (h : ∀ p ∈ l, ¬(p.userPlanId = pid ∧ p.userId = uid)) :
    l.filter (planMatch pid uid) = [] := by
  rw [List.filter_eq_nil_iff]
  intro p hp hm
  exact h p hp (planMatch_eq_true.mp hm)

/-- A `(planId, userId)` scope with no matching row satisfies no row. -/
theorem noMatch_any {l : List PlanRow} {pid uid : Nat}
    (h : ∀ p ∈ l, ¬(p.userPlanId = pid ∧ p.userId = uid)) :
    l.any (planMatch pid uid) = false := by
  rw [List.any_eq_false]
  intro p hp hm
  exact h p hp (planMatch_eq_true.mp hm)

/-- A `(planId, userId)` scope with a matching row filters to a non-empty
list. -/
theorem exMatch_isEmpty_false {l : List PlanRow} {pid uid : Nat}
    (h : ∃ p ∈ l, p.userPlanId = pid ∧ p.userId = uid) :
    (l.filter (planMatch pid uid)).isEmpty = false := by
  obtain ⟨p, hp, hm⟩ := h
  rw [List.isEmpty_eq_false]
  intro hnil
  rw [List.filter_eq_nil_iff] at hnil
  exact hnil p hp (planMatch_eq_true.mpr hm)

/-- C5: for every plan-scoped or step-scoped operation, when no plan row
matches `(planId, userId)` — whether because no plan with that id exists
or because it is owned by someone else, two situations this hypothesis
does not distinguish — the operation returns the very same NotFound
response and the very same (unchanged) store state.  The response is a
constant of the hypothesis alone, so an ownership mismatch is observably
identical to nonexistence, and no mutation occurs in either case. -/
theorem ownership_mismatch_indistinguishable_from_absence
    (db : DB) (pid uid : Nat) (payload : UpdatePayload) (fault : Option Nat)
    (now sid : Nat) (c : Bool) (ca : Option Nat) (ns : NewStepPayload)
    (hno : ∀ p ∈ db.plans, ¬(p.userPlanId = pid ∧ p.userId = uid)) :
    getPlan db pid uid = (db, .error ⟨404, "Plan not found"⟩) ∧
    updatePlan db pid uid payload fault = (db, .error ⟨404, "Plan not found"⟩) ∧
    completePlan db pid uid now = (db, .error ⟨404, "Plan not found"⟩) ∧
    deletePlan db pid uid = (db, .error ⟨404, "Plan not found"⟩) ∧
    completeStep db pid sid uid c ca = (db, .error ⟨404, "Plan not found"⟩) ∧
    addStep db pid uid ns = (db, .error ⟨404, "Plan not found"⟩) ∧
    deleteStep db pid sid uid = (db, .error ⟨404, "Plan not found"⟩) ∧
    saveExisting db uid pid uid = (db, .error ⟨404, "Plan not found or does not belong to the user"⟩) := by
  refine ⟨?_, ?_, ?_, ?_, ?_, ?_, ?_, ?_⟩
  · simp [getPlan, noMatch_filter hno]
  · simp [updatePlan, updateTx, noMatch_any hno]
  · simp [completePlan, noMatch_filter hno]
  · simp [deletePlan, noMatch_filter hno]
  · simp [completeStep, noMatch_filter hno]
  · simp [addStep, noMatch_filter hno]
  · simp [deleteStep, noMatch_filter hno]
  · simp [saveExisting, noMatch_filter hno]

/-- Witness for C5: user 1 targets plan 1, which exists but belongs to
user 2 — an ownership mismatch — and every operation answers exactly as
for an absent plan, leaving the store unchanged. -/
theorem ownership_mismatch_witness :
    getPlan dbForeign 1 1 = (dbForeign, .error ⟨404, "Plan not found"⟩) ∧
    updatePlan dbForeign 1 1 payloadKeep none = (dbForeign, .error ⟨404, "Plan not found"⟩) ∧
    completePlan dbForeign 1 1 99 = (dbForeign, .error ⟨404, "Plan not found"⟩) ∧
    deletePlan dbForeign 1 1 = (dbForeign, .error ⟨404, "Plan not found"⟩) ∧
    completeStep dbForeign 1 1 1 true none = (dbForeign, .error ⟨404, "Plan not found"⟩) ∧
    addStep dbForeign 1 1 nsSeed = (dbForeign, .error ⟨404, "Plan not found"⟩) ∧
    deleteStep dbForeign 1 1 1 = (dbForeign, .error ⟨404, "Plan not found"⟩) ∧
    saveExisting dbForeign 1 1 1 = (dbForeign, .error ⟨404, "Plan not found or does not belong to the user"⟩) :=
  ownership_mismatch_indistinguishable_from_absence dbForeign 1 1 payloadKeep none 99 1 true none
    nsSeed (by decide)

/-- Counterexample to C1: `completeStep` writes the caller-supplied
`completed`/`completedAt` pair unchecked, so the call with
`{completed: true, completedAt: null}` on plan 1 (owned by caller 7)
succeeds and leaves step 2 marked completed with a null completion
timestamp. -/
theorem completeStep_without_timestamp_counterexample :
    (completeStep dbOwned 1 2 7 true none).2 =
      .ok ⟨2, 1, none, "Water", 30, true, none, some 2⟩ ∧
    (⟨2, 1, none, "Water", 30, true, none, some 2⟩ : StepRow) ∈
      (completeStep dbOwned 1 2 7 true none).1.steps :=
  ⟨rfl, by decide⟩

/-- C1 (amended): `complete` never marks a step completed without a
completion timestamp — it preserves the invariant that every completed
step has a non-null `completedAt` — and `completeStep` preserves it
exactly when the caller supplies a non-null `completedAt` whenever it
supplies `completed = true`; with `completed: true, completedAt: null`
the invariant is violated (see the counterexample). -/
theorem complete_and_completeStep_preserve_timestamp_invariant
    (db : DB) (pid uid sid now : Nat) (c : Bool) (ca : Option Nat)
    (hinv : StepTimestampInv db) (hca : c = true → ca ≠ none) :
    StepTimestampInv (completePlan db pid uid now).1 ∧
    StepTimestampInv (completeStep db pid sid uid c ca).1 := by
  constructor
  · simp only [completePlan]
    split
    · exact hinv
    · intro s hs
      simp only [List.mem_map] at hs
      obtain ⟨t, ht, rfl⟩ := hs
      by_cases hcond : (t.userPlanId == pid && t.completed == false) = true
      · simp only [hcond, if_true]
        intro _
        simp
      · simp only [hcond, if_false]
        exact hinv t ht
  · simp only [completeStep]
    split
    · exact hinv
    · have hmap : StepTimestampInv
          { db with
            steps := db.steps.map (fun s =>
              if s.planStepId == sid && s.userPlanId == pid then
                { s with completed := c, completedAt := ca }
              else s) } := by
        intro s hs
        simp only [List.mem_map] at hs
        obtain ⟨t, ht, rfl⟩ := hs
        by_cases hcond : (t.planStepId == sid && t.userPlanId == pid) = true
        · simp only [hcond, if_true]
          exact hca
        · simp only [hcond, if_false]
          exact hinv t ht
      split
      · exact hmap
      · exact hmap

/-- Witness for the amended C1 at a concrete store: `complete` on the
three incomplete steps of plan 1, and `completeStep` with a supplied
timestamp, both preserve the invariant. -/
theorem c1_amended_witness :
    StepTimestampInv (completePlan dbOwned 1 7 99).1 ∧
    StepTimestampInv (completeStep dbOwned 1 2 7 true (some 55)).1 :=
  complete_and_completeStep_preserve_timestamp_invariant dbOwned 1 7 2 99 true (some 55)
    (by unfold StepTimestampInv; decide) (by decide)

/-- Counterexample to C2: `update` writes `isCompleted` straight from
its payload, so updating a completed plan with `isCompleted: false`
succeeds and moves the plan back to active. -/
theorem update_uncompletes_plan_counterexample :
    dbDone.plans = [planDone] ∧
    planDone.isCompleted = true ∧
    (updatePlan dbDone 1 7 payloadUncomplete none).2.isOk = true ∧
    (updatePlan dbDone 1 7 payloadUncomplete none).1.plans =
      [{ planDone with isCompleted := false }] :=
  ⟨rfl, rfl, rfl, rfl⟩

/-- C2 (amended): no operation of the subsystem other than `update`
ever transitions a completed plan back to active — `complete`,
`completeStep`, `addStep`, `deleteStep` and `saveExisting` all preserve
`isCompleted = true` of every surviving plan row — but `update` takes
`isCompleted` from its payload and can revert it (see the
counterexample). -/
theorem non_update_ops_preserve_completed
    (db : DB) (pid pid2 uid sid u1 u2 now : Nat) (c : Bool) (ca : Option Nat)
    (ns : NewStepPayload)
    (h : PlanCompleted db pid) :
    PlanCompleted (completePlan db pid2 uid now).1 pid ∧
    PlanCompleted (completeStep db pid2 sid uid c ca).1 pid ∧
    PlanCompleted (addStep db pid2 uid ns).1 pid ∧
    PlanCompleted (deleteStep db pid2 sid uid).1 pid ∧
    PlanCompleted (saveExisting db u1 pid2 u2).1 pid := by
  refine ⟨?_, ?_, ?_, ?_, ?_⟩
  · simp only [completePlan]
    split
    · exact h
    · intro p hp
      simp only [List.mem_map] at hp
      obtain ⟨q, hq, rfl⟩ := hp
      by_cases hcond : (q.userPlanId == pid2) = true
      · simp only [hcond, if_true]
        intro _
        trivial
      · simp only [hcond, if_false]
        exact h q hq
  · simp only [completeStep]
    split
    · exact h
    · split
      · exact h
      · exact h
  · simp only [addStep]
    split
    · exact h
    · exact h
  · simp only [deleteStep]
    split
    · exact h
    · split
      · exact h
      · exact h
  · simp only [saveExisting]
    split
    · exact h
    · split
      · exact h
      · exact h

/-- Witness for the amended C2 at a concrete store holding a completed
plan: each non-`update` operation leaves it completed. -/
theorem c2_amended_witness :
    PlanCompleted (completePlan dbDone 1 7 99).1 1 ∧
    PlanCompleted (completeStep dbDone 1 1 7 true (some 5)).1 1 ∧
    PlanCompleted (addStep dbDone 1 7 nsSeed).1 1 ∧
    PlanCompleted (deleteStep dbDone 1 1 7).1 1 ∧
    PlanCompleted (saveExisting dbDone 7 1 7).1 1 :=
  non_update_ops_preserve_completed dbDone 1 1 7 1 7 7 99 true (some 5) nsSeed
    (by unfold PlanCompleted; decide)

/-- C4: `delete` is all-or-nothing.  When no plan row matches
`(planId, userId)` — nonexistence or ownership mismatch — the call
fails with NotFound and returns the pre-transaction snapshot, the
rollback undoing the step deletion that already ran; when a row
matches, the call succeeds, no step of the plan survives, no plan row
matching `(planId, userId)` survives, and every other step and plan row
is retained. -/
theorem delete_is_all_or_nothing (db : DB) (pid uid : Nat) :
    ((∀ p ∈ db.plans, ¬(p.userPlanId = pid ∧ p.userId = uid)) →
      deletePlan db pid uid = (db, .error ⟨404, "Plan not found"⟩)) ∧
    ((∃ p ∈ db.plans, p.userPlanId = pid ∧ p.userId = uid) →
      (deletePlan db pid uid).2 = .ok "Plan deleted successfully" ∧
      (∀ s ∈ (deletePlan db pid uid).1.steps, s.userPlanId ≠ pid) ∧
      (∀ p ∈ (deletePlan db pid uid).1.plans, ¬(p.userPlanId = pid ∧ p.userId = uid)) ∧
      (∀ s ∈ db.steps, s.userPlanId ≠ pid → s ∈ (deletePlan db pid uid).1.steps) ∧
      (∀ p ∈ db.plans, ¬(p.userPlanId = pid ∧ p.userId = uid) →
        p ∈ (deletePlan db pid uid).1.plans)) := by
  constructor
  · intro h
    simp [deletePlan, noMatch_filter h]
  · intro hex
    have hne := exMatch_isEmpty_false hex
    simp only [deletePlan, hne, Bool.false_eq_true, if_false]
    refine ⟨by trivial, ?_, ?_, ?_, ?_⟩
    · intro s hs
      simp only [List.mem_filter, Bool.not_eq_true'] at hs
      simpa using hs.2
    · intro p hp hc
      simp only [List.mem_filter, Bool.not_eq_true'] at hp
      rw [planMatch_eq_true.symm] at hc
      rw [hp.2] at hc
      exact Bool.false_ne_true hc
    · intro s hs hne'
      simp only [List.mem_filter, Bool.not_eq_true']
      refine ⟨hs, ?_⟩
      simpa using hne'
    · intro p hp hnm
      simp only [List.mem_filter, Bool.not_eq_true']
      refine ⟨hp, ?_⟩
      rw [← Bool.not_eq_true (planMatch pid uid p)]
      intro hm
      exact hnm (planMatch_eq_true.mp hm)

/-- Witness for C4: deleting a foreign plan returns NotFound with the
store untouched; user 7 deleting their own plan 1 removes the plan row
and its three steps. -/
theorem delete_witness :
    deletePlan dbForeign 1 1 = (dbForeign, .error ⟨404, "Plan not found"⟩) ∧
    (deletePlan dbOwned 1 7).2 = .ok "Plan deleted successfully" ∧
    (∀ s ∈ (deletePlan dbOwned 1 7).1.steps, s.userPlanId ≠ 1) ∧
    (∀ p ∈ (deletePlan dbOwned 1 7).1.plans, ¬(p.userPlanId = 1 ∧ p.userId = 7)) := by
  have h1 := (delete_is_all_or_nothing dbForeign 1 1).1 (by decide)
  have h2 := (delete_is_all_or_nothing dbOwned 1 7).2 (by decide)
  exact ⟨h1, h2.1, h2.2.1, h2.2.2.1⟩

/-- C7: `complete` fails with NotFound (store unchanged) when no plan
row matches `(planId, userId)`; otherwise it succeeds, every plan row
with the plan's id ends up with `isCompleted = true`, every previously
incomplete step of the plan reappears completed with the non-null
timestamp `NOW()`, and every step of the plan is completed afterwards. -/
theorem complete_marks_plan_and_steps (db : DB) (pid uid now : Nat) :
    ((∀ p ∈ db.plans, ¬(p.userPlanId = pid ∧ p.userId = uid)) →
      completePlan db pid uid now = (db, .error ⟨404, "Plan not found"⟩)) ∧
    ((∃ p ∈ db.plans, p.userPlanId = pid ∧ p.userId = uid) →
      (completePlan db pid uid now).2.isOk = true ∧
      (∀ p ∈ (completePlan db pid uid now).1.plans, p.userPlanId = pid → p.isCompleted = true) ∧
      (∀ s ∈ db.steps, s.userPlanId = pid → s.completed = false →
        { s with completed := true, completedAt := some now } ∈
          (completePlan db pid uid now).1.steps) ∧
      (∀ s ∈ (completePlan db pid uid now).1.steps, s.userPlanId = pid → s.completed = true)) := by
  constructor
  · intro h
    simp [completePlan, noMatch_filter h]
  · intro hex
    have hne := exMatch_isEmpty_false hex
    simp only [completePlan, hne, Bool.false_eq_true, if_false]
    refine ⟨rfl, ?_, ?_, ?_⟩
    · intro p hp
      simp only [List.mem_map] at hp
      obtain ⟨q, hq, rfl⟩ := hp
      by_cases hcond : (q.userPlanId == pid) = true
      · simp only [hcond, if_true]
        intro _
        trivial
      · simp only [hcond, if_false]
        intro hid
        exact absurd (beq_iff_eq.mpr hid) (by simpa using hcond)
    · intro s hs hsid hsc
      refine List.mem_map.mpr ⟨s, hs, ?_⟩
      have hcond : (s.userPlanId == pid && s.completed == false) = true := by
        simp [hsid, hsc]
      simp only [hcond, if_true]
    · intro s hs
      simp only [List.mem_map] at hs
      obtain ⟨t, ht, rfl⟩ := hs
      by_cases hcond : (t.userPlanId == pid && t.completed == false) = true
      · simp only [hcond, if_true]
        intro _
        trivial
      · simp only [hcond, if_false]
        intro hid
        rw [Bool.and_eq_true] at hcond
        push_neg at hcond
        have h2 := hcond (beq_iff_eq.mpr hid)
        simpa using h2
/-- Witness for C7: completing a foreign plan returns NotFound with the
store untouched; completing plan 1 of user 7, which holds three
incomplete steps, succeeds, completes every step, and re-inserts the
first step with the `NOW()` timestamp. -/
theorem complete_witness :
    completePlan dbForeign 1 1 99 = (dbForeign, .error ⟨404, "Plan not found"⟩) ∧
    (completePlan dbOwned 1 7 99).2.isOk = true ∧
    (∀ s ∈ (completePlan dbOwned 1 7 99).1.steps, s.userPlanId = 1 → s.completed = true) ∧
    ({ stepMow with completed := true, completedAt := some 99 } ∈
      (completePlan dbOwned 1 7 99).1.steps) := by
  have h1 := (complete_marks_plan_and_steps dbForeign 1 1 99).1 (by decide)
  have h2 := (complete_marks_plan_and_steps dbOwned 1 7 99).2 (by decide)
  exact ⟨h1, h2.1, h2.2.2.2, h2.2.2.1 stepMow (by decide) rfl rfl⟩

/-- A step write never touches the plan table. -/
theorem applyStepWrite_plans (pid : Nat) (db : DB) (st : StepPayload) :
    (applyStepWrite pid db st).plans = db.plans := by
  unfold applyStepWrite
  split <;> rfl

/-- A successful run of the `update` step loop leaves the plan table of
its input state unchanged. -/
theorem stepsLoop_ok_plans (pid : Nat) :
    ∀ (l : List StepPayload) (db : DB) (fault : Option Nat) (i : Nat) (db' : DB),
      stepsLoop pid db l fault i = .ok db' → db'.plans = db.plans := by
  intro l
  induction l with
  | nil =>
      intro db fault i db' h
      cases h
      rfl
  | cons st rest ih =>
      intro db fault i db' h
      simp only [stepsLoop] at h
      split at h
      · cases h
      · rw [ih (applyStepWrite pid db st) fault (i + 1) db' h]
        exact applyStepWrite_plans pid db st

/-- A successful `update` transaction commits exactly the payload-merged
plan table. -/
theorem updateTx_ok_plans {db : DB} {pid uid : Nat} {payload : UpdatePayload}
    {fault : Option Nat} {dbC : DB}
    (h : updateTx db pid uid payload fault = .ok dbC) :
    dbC.plans = db.plans.map (fun p => if planMatch pid uid p then mergedPlan payload p else p) := by
  simp only [updateTx] at h
  split at h
  · exact stepsLoop_ok_plans pid payload.steps _ fault 0 dbC h
  · cases h

/-- C3: `update` is all-or-nothing.  It fails with NotFound when the
plan update matches no row; on any failure — the NotFound, or any step
write failing (the injected `fault`) — it returns the pre-transaction
snapshot, so the plan's scalar fields (indeed the whole store) are
unchanged; on success the store holds the payload-merged plan row and
the response is the post-commit re-read of the merged plan together
with its steps. -/
theorem update_is_all_or_nothing (db : DB) (pid uid : Nat) (payload : UpdatePayload)
    (fault : Option Nat) :
    ((∀ p ∈ db.plans, ¬(p.userPlanId = pid ∧ p.userId = uid)) →
      updatePlan db pid uid payload fault = (db, .error ⟨404, "Plan not found"⟩)) ∧
    (∀ e, (updatePlan db pid uid payload fault).2 = .error e →
      (updatePlan db pid uid payload fault).1 = db) ∧
    (∀ out, (updatePlan db pid uid payload fault).2 = .ok out →
      (∀ p ∈ db.plans, p.userPlanId = pid → p.userId = uid →
        mergedPlan payload p ∈ (updatePlan db pid uid payload fault).1.plans) ∧
      out.steps = (reReadRows (updatePlan db pid uid payload fault).1 pid).map projUpdStep ∧
      out.plan = (reReadRows (updatePlan db pid uid payload fault).1 pid).head?) := by
  refine ⟨?_, ?_, ?_⟩
  · intro h
    simp [updatePlan, updateTx, noMatch_any h]
  · intro e he
    unfold updatePlan at he ⊢
    rcases htx : updateTx db pid uid payload fault with e' | dbC
    · rfl
    · rw [htx] at he
      exact Except.noConfusion he
  · intro out hout
    unfold updatePlan at hout ⊢
    rcases htx : updateTx db pid uid payload fault with e' | dbC
    · rw [htx] at hout
      exact Except.noConfusion hout
    · rw [htx] at hout
      injection hout with hh
      subst hh
      refine ⟨?_, rfl, rfl⟩
      intro p hp hpid huid
      have hplans := updateTx_ok_plans htx
      show mergedPlan payload p ∈ dbC.plans
      rw [hplans]
      refine List.mem_map.mpr ⟨p, hp, ?_⟩
      have hm : planMatch pid uid p = true := planMatch_eq_true.mpr ⟨hpid, huid⟩
      simp [hm]

/-- Witness for C3: a foreign plan yields NotFound; a failing step
write (injected fault) leaves the store untouched; a successful update
commits the merged plan row. -/
theorem update_witness :
    updatePlan dbForeign 1 1 payloadKeep none = (dbForeign, .error ⟨404, "Plan not found"⟩) ∧
    (updatePlan dbOwned 1 7 payloadOneStep (some 0)).1 = dbOwned ∧
    mergedPlan payloadKeep planOwned ∈ (updatePlan dbEmptyPlan 1 7 payloadKeep none).1.plans := by
  refine ⟨(update_is_all_or_nothing dbForeign 1 1 payloadKeep none).1 (by decide),
    (update_is_all_or_nothing dbOwned 1 7 payloadOneStep (some 0)).2.1 ⟨500, "store failure"⟩ rfl,
    ?_⟩
  exact ((update_is_all_or_nothing dbEmptyPlan 1 7 payloadKeep none).2.2
    { plan := some (nullJoinRow planOwned gsBermuda),
      steps := [{ planStepId := none, stepDescription := none, dueDate := none, completed := none }] }
    rfl).1 planOwned (by decide) rfl rfl

/-- JavaScript's `(maxOrder || 0) + 1` coincides with `max + 1` (null
read as 0): the only value `||` mangles is 0, where both sides give 1. -/
theorem jsOrZero_add_one (m : Option Int) : jsOrZeroInt m + 1 = m.getD 0 + 1 := by
  cases m with
  | none => rfl
  | some x =>
      by_cases h : x = 0
      · simp [jsOrZeroInt, h]
      · simp [jsOrZeroInt, h]

/-- The next assigned order strictly exceeds the current maximum (read
as 0 when null). -/
theorem jsOrZero_lt (m : Option Int) : m.getD 0 < jsOrZeroInt m + 1 := by
  cases m with
  | none => decide
  | some x =>
      by_cases h : x = 0
      · simp [jsOrZeroInt, h]
      · simp only [jsOrZeroInt, Option.getD_some, beq_iff_eq, h, if_false]
        exact Int.lt_add_one_of_le (Int.le_refl x)

/-- Anything bounded by the current maximum is strictly below the next
assigned order. -/
theorem le_getD_lt_next (M : Option Int) (o : Int) (h : o ≤ M.getD 0) :
    o < jsOrZeroInt M + 1 :=
  lt_of_le_of_lt h (jsOrZero_lt M)

/-- A row appended to the scan is dominated by the new SQL `MAX` (read
as 0 when null, which cannot happen here). -/
theorem le_sqlMaxOrder_snoc (F : List StepRow) (row : StepRow) (o : Int)
    (hr : row.stepOrder = some o) :
    o ≤ (sqlMaxOrder (F ++ [row])).getD 0 := by
  unfold sqlMaxOrder
  rw [List.foldl_append]
  simp only [List.foldl]
  rw [hr]
  rcases hM : List.foldl
      (fun acc s =>
        match acc, s.stepOrder with
        | none, oo => oo
        | some m, none => some m
        | some m, some oo => some (max m oo))
      none F with _ | m
  · rw [hM]
    simp
  · rw [hM]
    simp

/-- C6: on a plan owned by the caller, `addStep` succeeds with 201,
returns the created row carrying the store's next identity, a null
`templateId`, and `stepOrder = MAX(existing stepOrder) + 1` (null `MAX`
read as 0, hence 1 on a plan with no steps), appends exactly that row,
and a second `addStep` on the same plan assigns a strictly larger
`stepOrder`. -/
theorem addStep_assigns_next_order (db : DB) (pid uid : Nat) (ns ns2 : NewStepPayload)
    (hown : ∃ p ∈ db.plans, p.userPlanId = pid ∧ p.userId = uid) :
    ∃ row db',
      addStep db pid uid ns = (db', .ok (row, 201)) ∧
      row.templateId = none ∧
      row.planStepId = db.nextStepId ∧
      row.stepOrder =
        some ((sqlMaxOrder (db.steps.filter (fun s => s.userPlanId == pid))).getD 0 + 1) ∧
      db'.steps = db.steps ++ [row] ∧
      (db.steps.filter (fun s => s.userPlanId == pid) = [] → row.stepOrder = some 1) ∧
      ∃ row2 db'',
        addStep db' pid uid ns2 = (db'', .ok (row2, 201)) ∧
        ∃ o1 o2 : Int, row.stepOrder = some o1 ∧ row2.stepOrder = some o2 ∧ o1 < o2 := by
  have hne := exMatch_isEmpty_false hown
  simp only [addStep, hne, Bool.false_eq_true, if_false]
  refine ⟨_, _, rfl, rfl, rfl, ?_, rfl, ?_, ?_⟩
  · rw [jsOrZero_add_one]
  · intro h
    rw [h]
    rfl
  · simp only [addStep, hne, Bool.false_eq_true, if_false]
    refine ⟨_, _, rfl, _, _, rfl, rfl, ?_⟩
    apply le_getD_lt_next
    rw [List.filter_append]
    simp only [List.filter_cons, List.filter_nil, beq_self_eq_true, if_true]
    exact le_sqlMaxOrder_snoc _ _ _ rfl

/-- Witness for C6 on a plan with no steps: the first added step gets
`stepOrder = 1` and a second added step a strictly larger order. -/
theorem addStep_order_witness :
    ∃ row db',
      addStep dbEmptyPlan 1 7 nsSeed = (db', .ok (row, 201)) ∧
      row.templateId = none ∧
      row.planStepId = dbEmptyPlan.nextStepId ∧
      row.stepOrder =
        some ((sqlMaxOrder (dbEmptyPlan.steps.filter (fun s => s.userPlanId == 1))).getD 0 + 1) ∧
      db'.steps = dbEmptyPlan.steps ++ [row] ∧
      (dbEmptyPlan.steps.filter (fun s => s.userPlanId == 1) = [] → row.stepOrder = some 1) ∧
      ∃ row2 db'',
        addStep db' 1 7 nsSeed = (db'', .ok (row2, 201)) ∧
        ∃ o1 o2 : Int, row.stepOrder = some o1 ∧ row2.stepOrder = some o2 ∧ o1 < o2 :=
  addStep_assigns_next_order dbEmptyPlan 1 7 nsSeed nsSeed (by decide)

/-- C8: `get` never mutates the store; it fails with NotFound when no
plan row matches `(planId, userId)`; and every successful response is
the matching plan joined with its species name, its steps listed in
ascending `dueDate` order (pairwise, hence for every adjacent pair). -/
theorem get_returns_plan_with_sorted_steps (db : DB) (pid uid : Nat) :
    (getPlan db pid uid).1 = db ∧
    ((∀ p ∈ db.plans, ¬(p.userPlanId = pid ∧ p.userId = uid)) →
      getPlan db pid uid = (db, .error ⟨404, "Plan not found"⟩)) ∧
    (∀ out, (getPlan db pid uid).2 = .ok out →
      List.Pairwise stepLe out.steps ∧
      ∃ p ∈ db.plans, p.userPlanId = pid ∧ p.userId = uid ∧
        ∃ g ∈ db.species, g.grassSpeciesId = p.grassSpeciesId ∧
          out = { userPlanId := p.userPlanId
                  userId := p.userId
                  grassSpeciesId := p.grassSpeciesId
                  grassSpeciesName := g.name
                  planType := p.planType
                  establishmentType := p.establishmentType
                  isCompleted := p.isCompleted
                  isArchived := p.isArchived
                  createdAt := p.createdAt
                  completedAt := p.completedAt
                  steps := List.insertionSort stepLe
                    (db.steps.filter (fun s => s.userPlanId == pid)) }) := by
  refine ⟨?_, ?_, ?_⟩
  · simp only [getPlan]
    split <;> rfl
  · intro h
    simp [getPlan, noMatch_filter h]
  · intro out hout
    unfold getPlan at hout
    rcases hrows : (db.plans.filter (planMatch pid uid)).filterMap (fun p =>
        (db.species.find? (fun g => g.grassSpeciesId == p.grassSpeciesId)).map
          (fun g => (p, g))) with _ | ⟨⟨p, g⟩, rest⟩
    · rw [hrows] at hout
      exact Except.noConfusion hout
    · rw [hrows] at hout
      injection hout with hh
      subst hh
      have hmem : (p, g) ∈ (db.plans.filter (planMatch pid uid)).filterMap (fun p =>
          (db.species.find? (fun g => g.grassSpeciesId == p.grassSpeciesId)).map
            (fun g => (p, g))) := by
        rw [hrows]
        exact List.mem_cons_self _ _
      rw [List.mem_filterMap] at hmem
      obtain ⟨a, ha, hmap⟩ := hmem
      rw [Option.map_eq_some'] at hmap
      obtain ⟨g', hfind, hpair⟩ := hmap
      injection hpair with h1 h2
      subst h1
      subst h2
      rw [List.mem_filter] at ha
      constructor
      · exact List.sorted_insertionSort stepLe _
      · refine ⟨a, ha.1, (planMatch_eq_true.mp ha.2).1, (planMatch_eq_true.mp ha.2).2, g', ?_, ?_, rfl⟩
        · exact List.mem_of_find?_eq_some hfind
        · have hbeq := List.find?_some hfind
          exact beq_iff_eq.mp hbeq

/-- Witness for C8: a foreign plan yields NotFound; user 7's own plan 1
is returned unchanged-store with its three steps in ascending due-date
order. -/
theorem get_witness :
    getPlan dbForeign 1 1 = (dbForeign, .error ⟨404, "Plan not found"⟩) ∧
    (getPlan dbOwned 1 7).1 = dbOwned ∧
    (∃ out, (getPlan dbOwned 1 7).2 = .ok out ∧ List.Pairwise stepLe out.steps) := by
  refine ⟨(get_returns_plan_with_sorted_steps dbForeign 1 1).2.1 (by decide),
    (get_returns_plan_with_sorted_steps dbOwned 1 7).1, ?_⟩
  refine ⟨{ userPlanId := 1, userId := 7, grassSpeciesId := 1, grassSpeciesName := "Bermuda",
            planType := "new_lawn", establishmentType := none, isCompleted := false,
            isArchived := false, createdAt := 100, completedAt := none,
            steps := [stepWater, stepSeed, stepMow] }, rfl, ?_⟩
  exact ((get_returns_plan_with_sorted_steps dbOwned 1 7).2.2 _ rfl).1

/-- C9 failing-input evaluation: user 7 owns two distinct plans, both
without steps, yet `listForUser` returns a single plan entry whose
`userPlanId` is null.  In `SELECT up.*, gs.name, ps.*` the step table's
`userPlanId` column shadows the plan's in the row object, so both
unmatched LEFT JOIN rows carry `userPlanId = null`, the `plans.find`
lookup identifies them, and the second plan is silently merged into the
first instead of being returned. -/
theorem listForUser_merges_stepless_plans :
    dbTwoEmpty.plans = [planOwned, planTwo] ∧
    planOwned.userPlanId ≠ planTwo.userPlanId ∧
    (listForUser dbTwoEmpty 7 7).2 =
      .ok [{ userPlanId := none, userId := 7, grassSpeciesId := 1,
             grassSpeciesName := "Bermuda", establishmentType := none,
             planType := "new_lawn", isCompleted := false, isArchived := false,
             createdAt := 100, completedAt := none, steps := [] }] :=
  ⟨rfl, by decide, rfl⟩

/-- Counterexample to C10 as stated: on a plan with zero steps, an
update whose payload inserts one step is successful, and its re-read
returns that inserted step — not a single all-null entry.  The claim
holds only when the plan still has zero steps at the post-commit
re-read. -/
theorem update_reread_counterexample :
    dbEmptyPlan.steps = [] ∧
    (updatePlan dbEmptyPlan 1 7 payloadOneStep none).2 =
      .ok { plan := some { userId := 7, grassSpeciesId := 1, planType := "new_lawn",
                           establishmentType := none, isCompleted := false, isArchived := false,
                           createdAt := 100, grassSpeciesName := "Bermuda",
                           planStepId := some 3, userPlanId := some 1, templateId := none,
                           stepDescription := some "Mow", dueDate := some 5,
                           completed := some false, completedAt := none, stepOrder := none },
            steps := [{ planStepId := some 3, stepDescription := some "Mow",
                        dueDate := some 5, completed := some false }] } ∧
    (match (updatePlan dbEmptyPlan 1 7 payloadOneStep none).2 with
      | Except.ok out => out.steps
      | Except.error _ => []) ≠
      [{ planStepId := none, stepDescription := none, dueDate := none, completed := none }] :=
  ⟨rfl, rfl, by decide⟩

/-- Mapping a row-transformer that preserves a predicate commutes with
filtering by that predicate. -/
theorem filter_map_comm {α : Type} (f : α → α) (p : α → Bool) :
    ∀ l : List α, (∀ x ∈ l, p (f x) = p x) →
      (l.map f).filter p = (l.filter p).map f := by
  intro l
  induction l with
  | nil => intro _; rfl
  | cons a t ih =>
      intro h
      simp only [List.map_cons, List.filter_cons]
      rw [h a (List.mem_cons_self a t)]
      by_cases hc : p a = true
      · rw [if_pos hc, if_pos hc]
        simp only [List.map_cons]
        rw [ih (fun x hx => h x (List.mem_cons_of_mem a hx))]
      · rw [if_neg hc, if_neg hc]
        exact ih (fun x hx => h x (List.mem_cons_of_mem a hx))

/-- C10 (amended): for every plan that has zero steps, whose id is
unique in the plan table, and every successful update whose payload
carries no steps — so the plan still has zero steps at the post-commit
re-read — the response's steps array is exactly one entry with null
`planStepId`, `stepDescription`, `dueDate` and `completed` (the
unmatched LEFT JOIN row of the re-read is not filtered out), whereas
`get` on the same plan afterwards succeeds with an empty steps array. -/
theorem update_reread_null_row_for_stepless_plan
    (db : DB) (pid uid : Nat) (payload : UpdatePayload) (p : PlanRow) (g : GrassSpecies)
    (hp : db.plans.filter (fun q => q.userPlanId == pid) = [p])
    (hu : p.userId = uid)
    (hs : db.steps.filter (fun s => s.userPlanId == pid) = [])
    (hpl : payload.steps = [])
    (hg : db.species.find? (fun gg => gg.grassSpeciesId == payload.grassSpeciesId) = some g) :
    (updatePlan db pid uid payload none).2 =
      .ok { plan := some (nullJoinRow (mergedPlan payload p) g),
            steps := [{ planStepId := none, stepDescription := none,
                        dueDate := none, completed := none }] } ∧
    ∃ out, getPlan (updatePlan db pid uid payload none).1 pid uid =
        ((updatePlan db pid uid payload none).1, .ok out) ∧ out.steps = [] := by
  have hpmem : p ∈ db.plans ∧ (p.userPlanId == pid) = true := by
    have h1 : p ∈ db.plans.filter (fun q => q.userPlanId == pid) := by
      rw [hp]
      exact List.mem_cons_self _ _
    exact List.mem_filter.mp h1
  have hpid : p.userPlanId = pid := beq_iff_eq.mp hpmem.2
  have hm : planMatch pid uid p = true := planMatch_eq_true.mpr ⟨hpid, hu⟩
  have hmatched : db.plans.any (planMatch pid uid) = true :=
    List.any_eq_true.mpr ⟨p, hpmem.1, hm⟩
  set f : PlanRow → PlanRow :=
    fun q => if planMatch pid uid q then mergedPlan payload q else q with hf
  set dbC : DB := { db with plans := db.plans.map f } with hdbC
  have htx : updateTx db pid uid payload none = .ok dbC := by
    simp only [updateTx, hmatched, if_true, hpl, stepsLoop]
  have hup : updatePlan db pid uid payload none =
      (dbC, .ok { plan := (reReadRows dbC pid).head?,
                  steps := (reReadRows dbC pid).map projUpdStep }) := by
    unfold updatePlan
    rw [htx]
  have hcong1 : ∀ x ∈ db.plans, ((f x).userPlanId == pid) = (x.userPlanId == pid) := by
    intro x _
    by_cases hc : planMatch pid uid x = true
    · simp only [hf]
      rw [if_pos hc]
      rfl
    · simp only [hf]
      rw [if_neg hc]
  have hfilter1 : dbC.plans.filter (fun q => q.userPlanId == pid) = [mergedPlan payload p] := by
    show (db.plans.map f).filter (fun q => q.userPlanId == pid) = [mergedPlan payload p]
    rw [filter_map_comm f _ db.plans hcong1, hp]
    simp only [List.map_cons, List.map_nil, hf]
    rw [if_pos hm]
  have hjoin : joinPlanRows dbC (mergedPlan payload p) = [nullJoinRow (mergedPlan payload p) g] := by
    unfold joinPlanRows
    have h2 : dbC.species = db.species := rfl
    have h1 : (mergedPlan payload p).grassSpeciesId = payload.grassSpeciesId := rfl
    rw [h2]
    simp only [h1]
    rw [hg]
    have h3 : (mergedPlan payload p).userPlanId = pid := hpid
    have h4 : dbC.steps = db.steps := rfl
    rw [h4]
    simp only [h3]
    rw [hs]
  have hrr : reReadRows dbC pid = [nullJoinRow (mergedPlan payload p) g] := by
    unfold reReadRows
    rw [hfilter1]
    simp [hjoin, List.insertionSort]
  constructor
  · rw [hup]
    show Except.ok _ = _
    rw [hrr]
    rfl
  · have hcong2 : ∀ x ∈ db.plans, planMatch pid uid (f x) = planMatch pid uid x := by
      intro x _
      by_cases hc : planMatch pid uid x = true
      · simp only [hf]
        rw [if_pos hc]
        rfl
      · simp only [hf]
        rw [if_neg hc]
    have h2 : (db.plans.filter (fun q => q.userPlanId == pid)).filter
        (fun q => q.userId == uid) =
        db.plans.filter (fun a => a.userId == uid && a.userPlanId == pid) :=
      List.filter_filter _ _
    have h3 : db.plans.filter (fun a => a.userId == uid && a.userPlanId == pid) =
        db.plans.filter (planMatch pid uid) :=
      List.filter_congr (fun a _ => by simp [planMatch, Bool.and_comm])
    have hfPM : db.plans.filter (planMatch pid uid) = [p] := by
      rw [← h3, ← h2, hp]
      simp [hu]
    have hfilter2 : dbC.plans.filter (planMatch pid uid) = [mergedPlan payload p] := by
      show (db.plans.map f).filter (planMatch pid uid) = [mergedPlan payload p]
      rw [filter_map_comm f _ db.plans hcong2, hfPM]
      simp only [List.map_cons, List.map_nil, hf]
      rw [if_pos hm]
    have h1 : (updatePlan db pid uid payload none).1 = dbC := by
      rw [hup]
    rw [h1]
    refine ⟨{ userPlanId := (mergedPlan payload p).userPlanId,
              userId := (mergedPlan payload p).userId,
              grassSpeciesId := (mergedPlan payload p).grassSpeciesId,
              grassSpeciesName := g.name,
              planType := (mergedPlan payload p).planType,
              establishmentType := (mergedPlan payload p).establishmentType,
              isCompleted := (mergedPlan payload p).isCompleted,
              isArchived := (mergedPlan payload p).isArchived,
              createdAt := (mergedPlan payload p).createdAt,
              completedAt := (mergedPlan payload p).completedAt,
              steps := [] }, ?_, rfl⟩
    simp only [getPlan]
    rw [hfilter2]
    simp only [List.filterMap_cons, List.filterMap_nil]
    have hfind2 : dbC.species.find?
        (fun gg => gg.grassSpeciesId == (mergedPlan payload p).grassSpeciesId) = some g := hg
    rw [hfind2]
    simp only [Option.map_some']
    have hsteps2 : dbC.steps.filter (fun s => s.userPlanId == pid) = [] := hs
    rw [hsteps2]
    rfl

/-- Witness for the amended C10: updating the step-less plan 1 of user
7 with a payload carrying no steps answers with exactly one all-null
step entry, while `get` on the updated store returns an empty steps
array. -/
theorem update_reread_null_row_witness :
    (updatePlan dbEmptyPlan 1 7 payloadKeep none).2 =
      .ok { plan := some (nullJoinRow (mergedPlan payloadKeep planOwned) gsBermuda),
            steps := [{ planStepId := none, stepDescription := none,
                        dueDate := none, completed := none }] } ∧
    ∃ out, getPlan (updatePlan dbEmptyPlan 1 7 payloadKeep none).1 1 7 =
        ((updatePlan dbEmptyPlan 1 7 payloadKeep none).1, .ok out) ∧ out.steps = [] :=
  update_reread_null_row_for_stepless_plan dbEmptyPlan 1 7 payloadKeep planOwned gsBermuda
    rfl rfl rfl rfl rfl
